import Mathlib

/-!
Verification development for a two-script receipt/invoice field-extraction
pipeline (meriwether-invoice-processor.py and northwest-receipt-processor.py).
Python strings are embedded as `List Char`; regular-expression searches are
embedded as explicit leftmost scans with the exact backtracking behaviour of
the concrete patterns appearing in the source; fallible code returns
`Option` or `Except`, where `none` / `.error` models a raised exception.
-/

/-- Whitespace characters recognised by the Python whitespace class on the
ASCII-plus-latin1 range: space, tab, LF, VT, FF, CR, FS, GS, RS, US, NEL, NBSP. -/
def isWS (c : Char) : Bool :=
  c == ' ' || c == '\t' || c == '\n' || c == Char.ofNat 11 || c == Char.ofNat 12 ||
  c == '\r' || c == Char.ofNat 28 || c == Char.ofNat 29 || c == Char.ofNat 30 ||
  c == Char.ofNat 31 || c == Char.ofNat 133 || c == Char.ofNat 160

/-- Word characters of the regex class on ASCII input: letters, digits, underscore. -/
def isWordChar (c : Char) : Bool :=
  c.isAlphanum || c == '_'

/-- Line-boundary characters of Python str.splitlines (CRLF is handled as a pair). -/
def isLineBreak (c : Char) : Bool :=
  c == '\n' || c == '\r' || c == Char.ofNat 11 || c == Char.ofNat 12 ||
  c == Char.ofNat 28 || c == Char.ofNat 29 || c == Char.ofNat 30 ||
  c == Char.ofNat 133 || c == Char.ofNat 8232 || c == Char.ofNat 8233

/-- Models Python str.strip(): drop whitespace from both ends. -/
def pyStrip (l : List Char) : List Char :=
  ((l.dropWhile isWS).reverse.dropWhile isWS).reverse

/-- Accumulator loop of `pySplitlines`; `cur` holds the current line reversed. -/
def pySplitlinesAux (cur : List Char) : List Char → List (List Char)
  | [] => if cur.isEmpty then [] else [cur.reverse]
  | '\r' :: '\n' :: rest => cur.reverse :: pySplitlinesAux [] rest
  | c :: rest =>
    if isLineBreak c then cur.reverse :: pySplitlinesAux [] rest
    else pySplitlinesAux (c :: cur) rest

/-- Models Python str.splitlines(): split at line boundaries, no trailing empty line. -/
def pySplitlines (l : List Char) : List (List Char) :=
  pySplitlinesAux [] l

/-- Models the line normalisation `[ln.strip() for ln in text.splitlines() if ln.strip()]`
shared by both scripts: stripped, non-blank lines in order. -/
def pyTextLines (text : List Char) : List (List Char) :=
  ((pySplitlines text).map pyStrip).filter (fun l => !l.isEmpty)

/-- Models the Python substring test `needle in hay` (case-sensitive). -/
def containsSub (needle : List Char) : List Char → Bool
  | [] => needle.isEmpty
  | c :: t => needle.isPrefixOf (c :: t) || containsSub needle t

/-- Case-insensitive literal match of a (lowercase) pattern at the head of `l`,
embedding a regex literal under re.IGNORECASE at a fixed scan position. -/
def lowerMatch (pat : List Char) (l : List Char) : Bool :=
  pat.isPrefixOf ((l.take pat.length).map Char.toLower)

/-- Leftmost regex search: try the matcher at every start position in order. -/
def scanFirst {α : Type} (f : List Char → Option α) : List Char → Option α
  | [] => f []
  | c :: cs =>
    match f (c :: cs) with
    | some r => some r
    | none => scanFirst f cs

/-- Leftmost regex search carrying the previous character, for word-boundary tests. -/
def scanFirstP {α : Type} (f : Option Char → List Char → Option α) :
    Option Char → List Char → Option α
  | prev, [] => f prev []
  | prev, c :: cs =>
    match f prev (c :: cs) with
    | some r => some r
    | none => scanFirstP f (some c) cs

/-- A word boundary sits before the scan position: start of text or a non-word
character, given that the pattern begins with a word character. -/
def boundaryB : Option Char → Bool
  | none => true
  | some c => !isWordChar c

/-- Models `re.sub(r"\s+", " ", s)`: collapse each whitespace run to one space. -/
def collapseWS : List Char → List Char
  | [] => []
  | [c] => if isWS c then [' '] else [c]
  | a :: b :: rest =>
    if isWS a && isWS b then collapseWS (b :: rest)
    else (if isWS a then ' ' else a) :: collapseWS (b :: rest)

/-- Models `s.strip().split()[0]` given an already stripped argument tail:
first maximal run of non-whitespace characters; `none` models the IndexError
raised by `[0]` when split() returns an empty list. -/
def pyFirstToken (s : List Char) : Option (List Char) :=
  match s.dropWhile isWS with
  | [] => none
  | c :: cs => some ((c :: cs).takeWhile (fun d => !isWS d))

/-- First chunk of `re.split(r"\s{2,}", s)`: everything before the first run of
two or more whitespace characters. -/
def firstChunk : List Char → List Char
  | [] => []
  | [c] => [c]
  | a :: b :: rest =>
    if isWS a && isWS b then []
    else a :: firstChunk (b :: rest)

/-- Calendar date with no time component. -/
structure Date where
  year : Nat
  month : Nat
  day : Nat
deriving DecidableEq

/-- Gregorian leap-year test, as in the datetime module. -/
def isLeapYear (y : Nat) : Bool :=
  y % 4 == 0 && (y % 100 != 0 || y % 400 == 0)

/-- Days in a month, as validated by the datetime constructor. -/
def daysInMonth (y m : Nat) : Nat :=
  if m == 1 || m == 3 || m == 5 || m == 7 || m == 8 || m == 10 || m == 12 then 31
  else if m == 4 || m == 6 || m == 9 || m == 11 then 30
  else if isLeapYear y then 29
  else 28

/-- Numeric value of a digit string. -/
def natOfDigits (l : List Char) : Nat :=
  l.foldl (fun n c => 10 * n + (c.toNat - 48)) 0

/-- Greedy match of `\d{1,2}/` at the head: two digits then a slash if possible,
else one digit then a slash; returns the digits and the remainder after the slash. -/
def matchDigits12Slash : List Char → Option (List Char × List Char)
  | a :: b :: c :: rest =>
    if a.isDigit && b.isDigit && c == '/' then some ([a, b], rest)
    else if a.isDigit && b == '/' then some ([a], c :: rest)
    else none
  | a :: b :: rest =>
    if a.isDigit && b == '/' then some ([a], rest)
    else none
  | _ => none

/-- Match of the token regex `\d{1,2}/\d{1,2}/\d{4}` at the head of `l`,
returning the matched text. -/
def matchDateTokenAt (l : List Char) : Option (List Char) := do
  let (m, r1) ← matchDigits12Slash l
  let (d, r2) ← matchDigits12Slash r1
  match r2 with
  | y1 :: y2 :: y3 :: y4 :: _ =>
    if y1.isDigit && y2.isDigit && y3.isDigit && y4.isDigit then
      some (m ++ '/' :: d ++ '/' :: [y1, y2, y3, y4])
    else none
  | _ => none

/-- Models `datetime.strptime(tok, "%m/%d/%Y")` on a token: exactly the shape
1-2 digits, slash, 1-2 digits, slash, 4 digits, with ranges validated by the
datetime constructor; `none` models a raised ValueError. -/
def parseMMDDYYYY (tok : List Char) : Option Date := do
  let (ms, r1) ← matchDigits12Slash tok
  let (ds, r2) ← matchDigits12Slash r1
  match r2 with
  | [y1, y2, y3, y4] =>
    if y1.isDigit && y2.isDigit && y3.isDigit && y4.isDigit then
      let y := natOfDigits [y1, y2, y3, y4]
      let m := natOfDigits ms
      let d := natOfDigits ds
      if 1 ≤ y && 1 ≤ m && m ≤ 12 && 1 ≤ d && d ≤ daysInMonth y m then
        some ⟨y, m, d⟩
      else none
    else none
  | _ => none

/-- Zero-padded decimal rendering of width at least `w`, as strftime does. -/
def padNum (w : Nat) (n : Nat) : List Char :=
  let s := Nat.toDigits 10 n
  List.replicate (w - s.length) '0' ++ s

/-- Models `strftime("%Y-%m-%d")`. -/
def fmtYMD (d : Date) : List Char :=
  padNum 4 d.year ++ '-' :: padNum 2 d.month ++ '-' :: padNum 2 d.day

/-- Consume the optional `\$?` of the currency patterns. -/
def stripDollar : List Char → List Char
  | '$' :: t => t
  | r => r

/-- Match of the currency group `[\d,]+\.\d{2}` at the head of `l` (greedy run of
digits and commas, a dot, then two digits), returning the matched group. -/
def matchCurrencyAt (l : List Char) : Option (List Char) :=
  let run := l.takeWhile (fun c => c.isDigit || c == ',')
  if run.isEmpty then none
  else
    match l.drop run.length with
    | c :: a :: b :: _ =>
      if c == '.' && a.isDigit && b.isDigit then
        some (run ++ c :: a :: b :: [])
      else none
    | _ => none

/-- Decidable success test for `Except`. -/
def exceptOk {ε α : Type} : Except ε α → Bool
  | .ok _ => true
  | .error _ => false

/-- Index one past the last occurrence of `c`, or 0 when absent
(Python rfind plus one). -/
def idxPastLast (c : Char) (l : List Char) : Nat :=
  match l.reverse.findIdx? (· == c) with
  | none => 0
  | some j => l.length - j

/-- Models posixpath.split: break at the last slash, stripping trailing slashes
from a non-root head. -/
def pySplitPath (p : List Char) : List Char × List Char :=
  let i := idxPastLast '/' p
  let head := p.take i
  let tail := p.drop i
  if head.isEmpty || head.all (· == '/') then (head, tail)
  else ((head.reverse.dropWhile (· == '/')).reverse, tail)

/-- Models os.path.basename for POSIX paths. -/
def pyBasename (p : List Char) : List Char :=
  (pySplitPath p).2

/-- Models posixpath.splitext: split at the last dot after the last slash,
unless only dots lead the final component. -/
def pySplitExt (p : List Char) : List Char × List Char :=
  let si := idxPastLast '/' p
  let di := idxPastLast '.' p
  if si < di then
    if ((p.drop si).take (di - 1 - si)).any (fun ch => !(ch == '.')) then
      (p.take (di - 1), p.drop (di - 1))
    else (p, [])
  else (p, [])

/-- Models posixpath.join for the two-argument calls in the scripts. -/
def pyJoin (a b : List Char) : List Char :=
  match b with
  | '/' :: _ => b
  | _ =>
    if a.isEmpty then a ++ b
    else match a.getLast? with
      | some '/' => a ++ b
      | _ => a ++ '/' :: b

namespace Meriwether

/-- The invoice extraction result, modelling the dict returned by
extract_invoice_fields (the raw_text passthrough field is omitted; the
embedding works on the derived line list). -/
structure InvoiceFields where
  company_name : Option (List Char)
  service_date : Date
  invoice_number : Option (List Char)
  amount : Option (List Char)
deriving DecidableEq

/-- The COMPANY_NORMALIZATION table, an ordered substring-pattern map
(declaration order is the priority order, as for a Python dict). -/
def COMPANY_NORMALIZATION : List (List Char × List Char) :=
  [("meriwether pest & wildlife".toList, "Meriwether".toList),
   ("meriwether pest".toList, "Meriwether".toList),
   ("meriwether".toList, "Meriwether".toList)]

/-- First table entry whose pattern is a substring of the lowercased name. -/
def tableLookup (lower : List Char) : Option (List Char) :=
  COMPANY_NORMALIZATION.findSome?
    (fun kv => if containsSub kv.1 lower then some kv.2 else none)

/-- Models normalize_company_name: empty input maps to Unknown, otherwise the
first matching table entry wins, otherwise the first whitespace-delimited token
of the stripped input; `none` models the IndexError raised by the fallback
`name.strip().split()[0]` on a non-empty all-whitespace input. -/
def normalize_company_name (name : List Char) : Option (List Char) :=
  if name.isEmpty then some ("Unknown".toList)
  else
    match tableLookup (name.map Char.toLower) with
    | some short => some short
    | none => pyFirstToken (pyStrip name)

/-- Anchor test: `line.upper().startswith("INVOICE")`. -/
def isInvoiceAnchor (l : List Char) : Bool :=
  "INVOICE".toList.isPrefixOf (l.map Char.toUpper)

/-- Metadata-label test: `cand.upper().startswith(("ACCOUNT #", "PO #", "DATE"))`. -/
def metaStart (cand : List Char) : Bool :=
  let u := cand.map Char.toUpper
  "ACCOUNT #".toList.isPrefixOf u || "PO #".toList.isPrefixOf u ||
    "DATE".toList.isPrefixOf u

/-- One step of the upward walk from the anchor: a stripped candidate line is
substantive when it is non-empty and not a metadata label. -/
def vendorCand (l : List Char) : Option (List Char) :=
  let cand := pyStrip l
  if cand.isEmpty || metaStart cand then none else some cand

/-- Step 1 of extract_invoice_fields: locate the first INVOICE-anchored line,
walk upward past metadata labels for the vendor line, falling back to the first
line of the document when nothing was found. -/
def invoiceCompany (lines : List (List Char)) : Option (List Char) :=
  let fromAnchor :=
    match List.findIdx? isInvoiceAnchor lines with
    | some i => ((lines.take i).reverse).findSome? vendorCand
    | none => none
  match fromAnchor with
  | some c => some c
  | none => lines.head?

/-- Service-date strategy 1: at the first line containing "Service Date", parse
the first double-space-delimited chunk of the next line with the fuzzy date
parser; parse failures are swallowed and the loop breaks either way. -/
def serviceDateStrat1 (fuzzy : List Char → Option Date) :
    List (List Char) → Option Date
  | [] => none
  | l :: rest =>
    if containsSub "Service Date".toList l then
      match rest with
      | [] => none
      | nxt :: _ => fuzzy (firstChunk nxt)
    else serviceDateStrat1 fuzzy rest

/-- Search of one line for `\bDATE\s+(\d{1,2}/\d{1,2}/\d{4})` (IGNORECASE),
returning the captured date token. -/
def searchLabeledDate (line : List Char) : Option (List Char) :=
  scanFirstP (fun prev l =>
    if boundaryB prev && lowerMatch "date".toList l then
      match l.drop 4 with
      | c :: _ =>
        if isWS c then matchDateTokenAt ((l.drop 4).dropWhile isWS) else none
      | [] => none
    else none) none line

/-- Service-date strategy chain of extract_invoice_fields: the fuzzy
Service-Date lookahead, then the first labelled DATE token parsed strictly.
`.error` models the uncaught ValueError of a failed strict parse and the
explicitly raised "Could not find service date". -/
def invoiceServiceDate (fuzzy : List Char → Option Date)
    (lines : List (List Char)) : Except (List Char) Date :=
  match serviceDateStrat1 fuzzy lines with
  | some d => .ok d
  | none =>
    match lines.findSome? searchLabeledDate with
    | some tok =>
      match parseMMDDYYYY tok with
      | some d => .ok d
      | none => .error ("ValueError: time data does not match format".toList)
    | none => .error ("Could not find service date".toList)

/-- Search of one line for `INVOICE\s*#\s*([A-Za-z0-9\-]+)` (IGNORECASE). -/
def searchInvoiceNum (line : List Char) : Option (List Char) :=
  scanFirst (fun l =>
    if lowerMatch "invoice".toList l then
      match (l.drop 7).dropWhile isWS with
      | '#' :: t =>
        let g := (t.dropWhile isWS).takeWhile (fun c => c.isAlphanum || c == '-')
        if g.isEmpty then none else some g
      | _ => none
    else none) line

/-- Search of one line for the softer fallback `#\s*([0-9]{4,})`. -/
def searchHashNum (line : List Char) : Option (List Char) :=
  scanFirst (fun l =>
    match l with
    | '#' :: t =>
      let g := (t.dropWhile isWS).takeWhile Char.isDigit
      if 4 ≤ g.length then some g else none
    | _ => none) line

/-- Invoice-number chain: labelled pattern first, then the bare hash fallback. -/
def invoiceNumber (lines : List (List Char)) : Option (List Char) :=
  match lines.findSome? searchInvoiceNum with
  | some n => some n
  | none => lines.findSome? searchHashNum

/-- Search of one line for `Subtotal\s+\$?([0-9,]+\.\d{2})` (IGNORECASE). -/
def searchSubtotal (line : List Char) : Option (List Char) :=
  scanFirst (fun l =>
    if lowerMatch "subtotal".toList l then
      match l.drop 8 with
      | c :: _ =>
        if isWS c then
          matchCurrencyAt (stripDollar ((l.drop 8).dropWhile isWS))
        else none
      | [] => none
    else none) line

/-- Amount step of extract_invoice_fields: the first Subtotal match, returned
verbatim, or None. -/
def invoiceAmount (lines : List (List Char)) : Option (List Char) :=
  lines.findSome? searchSubtotal

/-- Models extract_invoice_fields on the normalised line list, parameterised by
the external fuzzy date parser used in strategy 1. -/
def extract_invoice_fields (fuzzy : List Char → Option Date)
    (lines : List (List Char)) : Except (List Char) InvoiceFields :=
  match invoiceServiceDate fuzzy lines with
  | .error e => .error e
  | .ok d =>
    .ok { company_name := invoiceCompany lines
          service_date := d
          invoice_number := invoiceNumber lines
          amount := invoiceAmount lines }

/-- Models sanitize_for_filename: strip, then replace slashes with dashes. -/
def sanitize_for_filename (s : List Char) : List Char :=
  (pyStrip s).map (fun c => if c == '/' then '-' else c)

/-- Models build_new_filename: date stanza, sanitised company, an
"Invoice #N" segment or the original base name, then the original extension
appended verbatim (empty when the path has none). -/
def build_new_filename (original_path : List Char) (service_date : Date)
    (short_company : List Char) (invoice_number : List Char) : List Char :=
  let be := pySplitExt (pyBasename original_path)
  let sc := sanitize_for_filename short_company
  let inv_part := if invoice_number.isEmpty then be.1
                  else "Invoice #".toList ++ invoice_number
  (fmtYMD service_date ++ '-' :: sc ++ '-' :: inv_part) ++ be.2

/-- Models process_invoice up to the rename: extraction, vendor normalisation
(whose IndexError propagates), and filename synthesis; the filesystem rename
consumes the returned name and happens only on a successful result. -/
def process_invoice (fuzzy : List Char → Option Date)
    (lines : List (List Char)) (pdf_path : List Char) :
    Except (List Char) (List Char) :=
  match extract_invoice_fields fuzzy lines with
  | .error e => .error e
  | .ok data =>
    match normalize_company_name (data.company_name.getD []) with
    | none => .error ("IndexError: list index out of range".toList)
    | some short =>
      .ok (build_new_filename pdf_path data.service_date short
            (data.invoice_number.getD []))

end Meriwether

/-- Model of dateutil.parser.parse with fuzzy=True, restricted to inputs that
are bare MM/DD/YYYY tokens, which dateutil reads month-first by default exactly
as the strict parse does; other inputs are left unmodelled (`none`). The
pipeline theorems quantify over the fuzzy parser; only concrete witness and
counterexample inputs instantiate it, on tokens of exactly this shape. -/
def dateutilParseModel (tok : List Char) : Option Date :=
  parseMMDDYYYY tok

namespace Northwest

/-- Search for one amount pattern `LABEL\s*\$?([\d,]+\.\d{2})` (IGNORECASE)
anywhere in the text, returning the captured currency group. -/
def searchAmountPat (label : List Char) (text : List Char) : Option (List Char) :=
  scanFirst (fun l =>
    if lowerMatch label l then
      matchCurrencyAt (stripDollar ((l.drop label.length).dropWhile isWS))
    else none) text

/-- Models `m.group(1).replace(",", "")`. -/
def pyRemoveCommas (l : List Char) : List Char :=
  l.filter (fun c => !(c == ','))

/-- Models extract_amount: the PAYMENT AMOUNT, AMOUNT, TOTAL labels in order,
first match wins, commas stripped from the captured group; `.error` models the
raised ValueError when no pattern matches. -/
def extract_amount (text : List Char) : Except (List Char) (List Char) :=
  match searchAmountPat "payment amount".toList text with
  | some g => .ok (pyRemoveCommas g)
  | none =>
    match searchAmountPat "amount".toList text with
    | some g => .ok (pyRemoveCommas g)
    | none =>
      match searchAmountPat "total".toList text with
      | some g => .ok (pyRemoveCommas g)
      | none => .error ("Could not find payment amount in receipt text.".toList)

/-- Search for `DATE[:\s]+(\d{1,2}/\d{1,2}/\d{4})` (IGNORECASE) in the text. -/
def searchColonLabeledDate (text : List Char) : Option (List Char) :=
  scanFirst (fun l =>
    if lowerMatch "date".toList l then
      match l.drop 4 with
      | c :: _ =>
        if c == ':' || isWS c then
          matchDateTokenAt ((l.drop 4).dropWhile (fun d => d == ':' || isWS d))
        else none
      | [] => none
    else none) text

/-- Search for a bare `\d{1,2}/\d{1,2}/\d{4}` token anywhere in the text. -/
def searchBareDate (text : List Char) : Option (List Char) :=
  scanFirst matchDateTokenAt text

/-- Models extract_date: labelled search, bare fallback, strict strptime parse,
rendered as YYYY-MM-DD. `.error` models both the explicit ValueError when no
token is found and the uncaught strptime ValueError on an invalid token. -/
def extract_date (text : List Char) : Except (List Char) (List Char) :=
  let m := match searchColonLabeledDate text with
    | some tok => some tok
    | none => searchBareDate text
  match m with
  | none => .error ("Could not find date in receipt text.".toList)
  | some raw =>
    match parseMMDDYYYY raw with
    | some dt => .ok (fmtYMD dt)
    | none => .error ("ValueError: time data does not match format".toList)

/-- Word-bounded case-insensitive search for a known-name pattern, embedding
`re.search(r"\b<pat>\b", text, re.IGNORECASE)` for patterns that start and end
with word characters. -/
def wordBounded (pat : List Char) (text : List Char) : Bool :=
  (scanFirstP (fun prev l =>
    if boundaryB prev && lowerMatch pat l then
      match l.drop pat.length with
      | [] => some ()
      | c :: _ => if isWordChar c then none else some ()
    else none) none text).isSome

/-- The skip_exact set of extract_company_from_text. -/
def skipExact : List (List Char) :=
  ["payment".toList, "receipt".toList, "payment receipt".toList,
   "confirmation".toList, "amount".toList, "date".toList,
   "credit card".toList, "name on card".toList]

/-- The substring label list of extract_company_from_text. -/
def skipLabels : List (List Char) :=
  ["payment receipt".toList, "confirmation number".toList,
   "payment amount".toList, "credit card".toList, "name on card".toList,
   "date ".toList]

/-- Models `re.match(r"^[A-Z ]+\d+$", norm)`: a run of capitals and spaces
followed by a non-empty digit tail. -/
def labelDigitsShape (norm : List Char) : Bool :=
  let a := norm.takeWhile (fun c => c.isUpper || c == ' ')
  let rest := norm.drop a.length
  !a.isEmpty && !rest.isEmpty && rest.all Char.isDigit

/-- Models `re.fullmatch(r"[\d\s\-#]+", norm)`. -/
def codeShape (norm : List Char) : Bool :=
  !norm.isEmpty && norm.all (fun c => c.isDigit || isWS c || c == '-' || c == '#')

/-- One step of the generic top-band scan: whitespace-collapsed stripped line,
skipped when it is a known non-vendor label or a label-plus-digits or
code-like shape. -/
def genericCand (ln : List Char) : Option (List Char) :=
  let norm := pyStrip (collapseWS ln)
  if norm.isEmpty then none
  else
    let low := norm.map Char.toLower
    if skipExact.any (fun s => s == low) then none
    else if skipLabels.any (fun s => containsSub s low) then none
    else if labelDigitsShape norm then none
    else if codeShape norm then none
    else some norm

/-- Models extract_company_from_text: known word-bounded patterns first, then
the generic scan of the first ten lines, then the hardcoded Northwest
fallback. -/
def extract_company_from_text (text : List Char) : List Char :=
  if wordBounded "northwest exterminating".toList text then
    "Northwest Exterminating".toList
  else if wordBounded "northwest".toList text then "Northwest".toList
  else
    match ((pyTextLines text).take 10).findSome? genericCand with
    | some n => n
    | none => "Northwest".toList

/-- Models extract_company_from_logo_ocr, parameterised by the outcome of the
external render-and-recognise call: `none` models any exception or an empty
image list, `some t` the recognised text of the top crop. The pattern checks
here are plain substring searches (no word boundary). -/
def extract_company_from_logo_ocr (ocr : Option (List Char)) : List Char :=
  match ocr with
  | none => "Unknown".toList
  | some t =>
    let low := t.map Char.toLower
    if containsSub "northwest exterminating".toList low then
      "Northwest Exterminating".toList
    else if containsSub "northwest".toList low then "Northwest".toList
    else "Unknown".toList

/-- Models extract_company: text-based detection first, the OCR result only
when the text layer resolved to Unknown. -/
def extract_company (text : List Char) (ocr : Option (List Char)) : List Char :=
  let company := extract_company_from_text text
  if company == "Unknown".toList then
    let company_ocr := extract_company_from_logo_ocr ocr
    if company_ocr == "Unknown".toList then "Unknown".toList else company_ocr
  else company

/-- Models sanitize_company: remove every non-alphanumeric character, with an
Unknown fallback for an empty result. -/
def sanitize_company (company : List Char) : List Char :=
  let cleaned := company.filter Char.isAlphanum
  if cleaned.isEmpty then "Unknown".toList else cleaned

/-- The extension actually used by main: the original one verbatim, defaulted
to ".pdf" when the name carries none. -/
def receiptExt (old_name : List Char) : List Char :=
  let ext := (pySplitExt old_name).2
  if ext.isEmpty then ".pdf".toList else ext

/-- The new file name synthesised by main. -/
def new_name (date_iso company_for_file old_name : List Char) : List Char :=
  (date_iso ++ '-' :: company_for_file) ++ receiptExt old_name

/-- The structured result payload printed by main. -/
structure ReceiptResult where
  fileName : List Char
  company : List Char
  amount : List Char
  date : List Char
deriving DecidableEq

/-- Pure core of main, in source order: amount, date, company, sanitisation and
filename synthesis; CLI parsing, the file-existence check and the rename are
external effects that consume the result, and the rename happens only on a
successful record. -/
def main_core (text : List Char) (ocr : Option (List Char))
    (pdf_path : List Char) : Except (List Char) ReceiptResult :=
  match extract_amount text with
  | .error e => .error e
  | .ok amount =>
    match extract_date text with
    | .error e => .error e
    | .ok date_iso =>
      let company := extract_company text ocr
      let company_for_file := sanitize_company company
      let sp := pySplitPath pdf_path
      let nn := new_name date_iso company_for_file sp.2
      .ok ⟨pyJoin sp.1 nn, company, amount, date_iso⟩

end Northwest

/-! ### General lemmas about the embedding combinators -/

theorem infixTrans {α : Type} {a b c : List α} (h1 : a <:+: b) (h2 : b <:+: c) :
    a <:+: c :=
  List.IsInfix.trans h1 h2

theorem infixMap (f : Char → Char) {a b : List Char} (h : a <:+: b) :
    a.map f <:+: b.map f :=
  List.IsInfix.map f h

theorem takeWhileInfix (p : Char → Bool) (l : List Char) : l.takeWhile p <:+: l :=
  List.IsPrefix.isInfix ( List.takeWhile_prefix p)

theorem dropWhileInfix (p : Char → Bool) (l : List Char) : l.dropWhile p <:+: l :=
  List.IsSuffix.isInfix ( List.dropWhile_suffix p)

theorem containsSub_iff (n h : List Char) : containsSub n h = true ↔ n <:+: h := by
  induction h with
  | nil => simp [containsSub, List.isEmpty_iff]
  | cons c t ih => simp [containsSub, ih, List.infix_cons_iff]

theorem scanFirst_some {α : Type} {f : List Char → Option α} {l : List Char}
    {b : α} (h : scanFirst f l = some b) : ∃ t, f t = some b := by
  induction l with
  | nil => exact ⟨[], h⟩
  | cons c cs ih =>
    unfold scanFirst at h
    cases hf : f (c :: cs) with
    | some r => rw [hf] at h; exact ⟨c :: cs, hf.trans h⟩
    | none => rw [hf] at h; exact ih h

theorem dropWhile_head_false {p : Char → Bool} {l : List Char} {c : Char}
    {cs : List Char} (h : l.dropWhile p = c :: cs) : p c = false := by
  induction l with
  | nil => cases h
  | cons a t ih =>
    rw [List.dropWhile_cons] at h
    by_cases hp : p a = true
    · rw [if_pos hp] at h; exact ih h
    · rw [if_neg hp] at h
      cases h
      simpa using hp

theorem dropWhile_eq_self_of_false {p : Char → Bool} {l : List Char}
    (h : ∀ c ∈ l, p c = false) : l.dropWhile p = l := by
  cases l with
  | nil => rfl
  | cons a t =>
    rw [List.dropWhile_cons, if_neg]
    simp [h a (by simp)]

theorem takeWhile_eq_self_of_true {p : Char → Bool} {l : List Char}
    (h : ∀ c ∈ l, p c = true) : l.takeWhile p = l := by
  induction l with
  | nil => rfl
  | cons a t ih =>
    rw [List.takeWhile_cons, if_pos (h a (by simp))]
    rw [ih (fun c hc => h c (by simp [hc]))]

theorem pyStrip_infixOf (l : List Char) : pyStrip l <:+: l := by
  unfold pyStrip
  have h1 : l.dropWhile isWS <:+ l := List.dropWhile_suffix isWS
  have h2 : (l.dropWhile isWS).reverse.dropWhile isWS <:+
      (l.dropWhile isWS).reverse := List.dropWhile_suffix isWS
  have h3 : ((l.dropWhile isWS).reverse.dropWhile isWS).reverse <+:
      l.dropWhile isWS := by
    have h4 := List.reverse_prefix.mpr h2
    rwa [List.reverse_reverse] at h4
  exact infixTrans ( List.IsPrefix.isInfix h3) ( List.IsSuffix.isInfix h1)

theorem mem_dropWhile_of_false {c : Char} {l : List Char} {p : Char → Bool}
    (hm : c ∈ l) (hw : p c = false) : c ∈ l.dropWhile p := by
  have hsplit := List.takeWhile_append_dropWhile p l
  rw [← hsplit] at hm
  rcases List.mem_append.mp hm with h | h
  · exact absurd ( List.mem_takeWhile_imp h) (by simp [hw])
  · exact h

theorem mem_pyStrip {c : Char} {l : List Char} (hm : c ∈ l)
    (hw : isWS c = false) : c ∈ pyStrip l := by
  unfold pyStrip
  rw [List.mem_reverse]
  exact mem_dropWhile_of_false (List.mem_reverse.mpr (mem_dropWhile_of_false hm hw)) hw

theorem pyFirstToken_shape {s t : List Char} (h : pyFirstToken s = some t) :
    t ≠ [] ∧ (∀ c ∈ t, isWS c = false) ∧ t <:+: s := by
  unfold pyFirstToken at h
  cases hz : s.dropWhile isWS with
  | nil => rw [hz] at h; cases h
  | cons c cs =>
    rw [hz] at h
    cases h
    have hc : isWS c = false := dropWhile_head_false hz
    refine ⟨?_, ?_, ?_⟩
    · rw [List.takeWhile_cons, if_pos (by simp [hc])]
      simp
    · intro d hd
      have := List.mem_takeWhile_imp hd
      simpa using this
    · have h5 : (c :: cs).takeWhile (fun d => !isWS d) <:+: s.dropWhile isWS := by
        rw [hz]
        exact takeWhileInfix _ _
      exact infixTrans h5 (dropWhileInfix _ _)

theorem noWS_pyStrip_eq {t : List Char} (h : ∀ c ∈ t, isWS c = false) :
    pyStrip t = t := by
  unfold pyStrip
  rw [dropWhile_eq_self_of_false h,
      dropWhile_eq_self_of_false (fun c hc => h c (List.mem_reverse.mp hc)),
      List.reverse_reverse]

theorem pyFirstToken_self {t : List Char} (hne : t ≠ [])
    (h : ∀ c ∈ t, isWS c = false) : pyFirstToken t = some t := by
  unfold pyFirstToken
  rw [dropWhile_eq_self_of_false h]
  cases t with
  | nil => exact absurd rfl hne
  | cons c cs =>
    have : (c :: cs).takeWhile (fun d => !isWS d) = c :: cs :=
      takeWhile_eq_self_of_true (fun d hd => by simp [h d hd])
    simp [this]

/-! ### Lemmas about the vendor normalisation table -/

theorem tableLookup_some_eq {low s : List Char}
    (h : Meriwether.tableLookup low = some s) : s = "Meriwether".toList := by
  unfold Meriwether.tableLookup Meriwether.COMPANY_NORMALIZATION at h
  simp only [List.findSome?_cons, List.findSome?_nil] at h
  split at h
  · rename_i b heq
    split at heq
    · cases heq; cases h; rfl
    · cases heq
  · split at h
    · rename_i b heq
      split at heq
      · cases heq; cases h; rfl
      · cases heq
    · split at h
      · rename_i b heq
        split at heq
        · cases heq; cases h; rfl
        · cases heq
      · cases h

theorem tableLookup_none_mono {x t : List Char} (hinf : t <:+: x)
    (hx : Meriwether.tableLookup (x.map Char.toLower) = none) :
    Meriwether.tableLookup (t.map Char.toLower) = none := by
  unfold Meriwether.tableLookup at hx ⊢
  rw [List.findSome?_eq_none_iff] at hx ⊢
  intro kv hkv
  have hx2 := hx kv hkv
  by_cases hc : containsSub kv.1 (t.map Char.toLower) = true
  · exfalso
    have h2 : kv.1 <:+: x.map Char.toLower :=
      infixTrans ((containsSub_iff _ _).mp hc) (infixMap Char.toLower hinf)
    rw [if_pos ((containsSub_iff _ _).mpr h2)] at hx2
    cases hx2
  · simp only [Bool.not_eq_true] at hc
    rw [if_neg (by simp [hc])]

/-- C8. Vendor normalisation is idempotent: every string that
normalize_company_name returns is mapped to itself by a second application.
The fallback token of a string with no table match cannot itself acquire a
table match, because it is an infix of the original string. -/
theorem c8_idempotent : ∀ x r, Meriwether.normalize_company_name x = some r →
    Meriwether.normalize_company_name r = some r := by
  intro x r h
  unfold Meriwether.normalize_company_name at h
  by_cases hx : x.isEmpty = true
  · rw [if_pos hx] at h
    cases h
    decide
  · rw [if_neg hx] at h
    cases ht : Meriwether.tableLookup (x.map Char.toLower) with
    | some s =>
      rw [ht] at h
      cases h
      rw [tableLookup_some_eq ht]
      decide
    | none =>
      rw [ht] at h
      obtain ⟨hne, hnws, hinf0⟩ := pyFirstToken_shape h
      have hinf : r <:+: x := infixTrans hinf0 (pyStrip_infixOf x)
      unfold Meriwether.normalize_company_name
      rw [if_neg (by simp [List.isEmpty_iff, hne])]
      rw [tableLookup_none_mono hinf ht]
      rw [noWS_pyStrip_eq hnws]
      exact pyFirstToken_self hne hnws

/-- C8 witness: normalising the sample vendor string yields Meriwether, and the
theorem instance at that input re-normalises Meriwether to itself. -/
theorem c8_idempotent_witness :
    Meriwether.normalize_company_name ("Meriwether".toList) =
      some ("Meriwether".toList) :=
  c8_idempotent ("Meriwether Pest & Wildlife Control".toList)
    ("Meriwether".toList) (by decide)

/-- C9 counterexample: on the non-empty all-whitespace input " " the first-token
fallback raises (split() returns an empty list and the [0] index fails), so
normalize_company_name is not total; `none` models the raised IndexError. -/
theorem c9_counterexample :
    Meriwether.normalize_company_name (" ".toList) = none := by decide

/-- C9 amended: normalize_company_name returns a string without raising for
every input that is empty or contains at least one non-whitespace character;
only a non-empty all-whitespace input makes the fallback branch fail. -/
theorem c9_amended : ∀ x, (x = [] ∨ ∃ c ∈ x, isWS c = false) →
    (Meriwether.normalize_company_name x).isSome = true := by
  intro x hx
  rcases hx with rfl | ⟨c, hc, hw⟩
  · decide
  · unfold Meriwether.normalize_company_name
    have hne : x ≠ [] := by rintro rfl; cases hc
    rw [if_neg (by simp [List.isEmpty_iff, hne])]
    cases ht : Meriwether.tableLookup (x.map Char.toLower) with
    | some s => simp
    | none =>
      have hmem : c ∈ pyStrip x := mem_pyStrip hc hw
      unfold pyFirstToken
      cases hz : (pyStrip x).dropWhile isWS with
      | nil =>
        exfalso
        have h6 := List.dropWhile_eq_nil_iff.mp hz c hmem
        rw [hw] at h6
        cases h6
      | cons d ds => simp

/-- C9 witness: the amended totality theorem applied at the concrete input
" Meriwether ", which contains a non-whitespace character. -/
theorem c9_amended_witness :
    (Meriwether.normalize_company_name (" Meriwether ".toList)).isSome = true :=
  c9_amended (" Meriwether ".toList)
    (Or.inr ⟨'M', by decide, by decide⟩)

theorem findSome?_first_hit {α β : Type} (f : α → Option β) :
    ∀ (l : List α) (i : Nat) (h : i < l.length) (v : β),
    (∀ x ∈ l.take i, f x = none) → f (l.get ⟨i, h⟩) = some v →
    l.findSome? f = some v := by
  intro l
  induction l with
  | nil => intro i h; cases h
  | cons a t ih =>
    intro i h v hbefore hhit
    cases i with
    | zero =>
      rw [List.findSome?_cons]
      simp only [List.get] at hhit
      rw [hhit]
    | succ j =>
      rw [List.findSome?_cons]
      have ha : f a = none := by
        apply hbefore
        rw [List.take_succ_cons]
        simp
      rw [ha]
      exact ih j (by simpa using h) v
        (fun x hx => hbefore x (by rw [List.take_succ_cons]; simp [hx])) hhit

/-- C5. Alias priority: for every non-empty raw vendor string, when entry `i`
of COMPANY_NORMALIZATION is the first entry in declaration order whose pattern
is a substring of the lowercased input, normalize_company_name returns that
entry's canonical value; in particular the sample overlapping-pattern input
resolves through the earliest-declared matching pattern to Meriwether. -/
theorem c5_alias_priority :
    (∀ (name : List Char) (i : Nat)
      (h : i < Meriwether.COMPANY_NORMALIZATION.length),
      name ≠ [] →
      (∀ kv ∈ Meriwether.COMPANY_NORMALIZATION.take i,
        containsSub kv.1 (name.map Char.toLower) = false) →
      containsSub (Meriwether.COMPANY_NORMALIZATION.get ⟨i, h⟩).1
        (name.map Char.toLower) = true →
      Meriwether.normalize_company_name name =
        some (Meriwether.COMPANY_NORMALIZATION.get ⟨i, h⟩).2) ∧
    Meriwether.normalize_company_name
        ("Meriwether Pest & Wildlife Control".toList) =
      some ("Meriwether".toList) := by
  constructor
  · intro name i h hne hbefore hhit
    unfold Meriwether.normalize_company_name
    rw [if_neg (by simp [List.isEmpty_iff, hne])]
    have hl : Meriwether.tableLookup (name.map Char.toLower) =
        some (Meriwether.COMPANY_NORMALIZATION.get ⟨i, h⟩).2 := by
      unfold Meriwether.tableLookup
      exact findSome?_first_hit _ _ i h _
        (fun kv hkv => by rw [if_neg (by simp [hbefore kv hkv])])
        (by rw [if_pos hhit])
    rw [hl]
  · decide

/-- C5 witness: the priority theorem applied to the sample input at table
index 0, whose pattern "meriwether pest & wildlife" is the first declared
match. -/
theorem c5_alias_priority_witness :
    Meriwether.normalize_company_name
        ("Meriwether Pest & Wildlife Control".toList) =
      some ((Meriwether.COMPANY_NORMALIZATION.get
        ⟨0, by decide⟩).2) :=
  c5_alias_priority.1 ("Meriwether Pest & Wildlife Control".toList) 0
    (by decide) (by decide) (by decide) (by decide)

/-- C10. When the line list is non-empty and the first INVOICE-anchored line is
the first line or is preceded only by metadata-label lines, the invoice vendor
extractor falls through its upward walk and returns the first line of the
document, which is never None. -/
theorem c10_anchor_fallback : ∀ (lines : List (List Char)) (i : Nat),
    lines ≠ [] →
    List.findIdx? Meriwether.isInvoiceAnchor lines = some i →
    (∀ l ∈ lines.take i, Meriwether.metaStart (pyStrip l) = true) →
    Meriwether.invoiceCompany lines = lines.head? ∧ lines.head? ≠ none := by
  intro lines i hne hidx hmeta
  constructor
  · have hwalk : ((lines.take i).reverse).findSome? Meriwether.vendorCand
        = none := by
      rw [List.findSome?_eq_none_iff]
      intro l hl
      rw [List.mem_reverse] at hl
      unfold Meriwether.vendorCand
      rw [if_pos (by simp [hmeta l hl])]
    unfold Meriwether.invoiceCompany
    rw [hidx]
    show (match ((lines.take i).reverse).findSome? Meriwether.vendorCand with
      | some c => some c
      | none => lines.head?) = lines.head?
    rw [hwalk]
  · cases lines with
    | nil => exact absurd rfl hne
    | cons a t => simp

/-- C10 witness: the fallback theorem applied to a document whose anchor line
is preceded only by an ACCOUNT metadata label; the extractor returns that
first line. -/
theorem c10_anchor_fallback_witness :
    Meriwether.invoiceCompany
        ["ACCOUNT #123".toList, "INVOICE #52359".toList] =
      (["ACCOUNT #123".toList, "INVOICE #52359".toList] :
        List (List Char)).head? ∧
    (["ACCOUNT #123".toList, "INVOICE #52359".toList] :
        List (List Char)).head? ≠ none :=
  c10_anchor_fallback ["ACCOUNT #123".toList, "INVOICE #52359".toList] 1
    (by decide) (by decide) (by decide)

theorem strat1_none_of_no_label {fuzzy : List Char → Option Date}
    {lines : List (List Char)}
    (h : ∀ l ∈ lines, containsSub "Service Date".toList l = false) :
    Meriwether.serviceDateStrat1 fuzzy lines = none := by
  induction lines with
  | nil => rfl
  | cons l rest ih =>
    unfold Meriwether.serviceDateStrat1
    rw [h l (by simp), if_neg (by simp)]
    exact ih (fun x hx => h x (by simp [hx]))

/-- C1 counterexample: a document carrying both the labelled date
"DATE 09/22/2025" with its valid token and a "Subtotal $184.50" line, plus one
noise line "DATE 01/02/2020", makes extract_invoice_fields return the parse of
the noise line's token rather than the 09/22/2025 one, so the claimed
independence from surrounding noise lines fails. -/
theorem c1_counterexample :
    Meriwether.searchLabeledDate ("DATE 09/22/2025".toList) =
        some ("09/22/2025".toList) ∧
    parseMMDDYYYY ("09/22/2025".toList) = some ⟨2025, 9, 22⟩ ∧
    Meriwether.invoiceAmount
        ["DATE 01/02/2020".toList, "DATE 09/22/2025".toList,
         "Subtotal $184.50".toList] = some ("184.50".toList) ∧
    (Meriwether.extract_invoice_fields dateutilParseModel
        ["DATE 01/02/2020".toList, "DATE 09/22/2025".toList,
         "Subtotal $184.50".toList]).toOption.map
      Meriwether.InvoiceFields.service_date = some ⟨2020, 1, 2⟩ ∧
    (⟨2020, 1, 2⟩ : Date) ≠ ⟨2025, 9, 22⟩ := by
  refine ⟨by decide, by decide, by decide, by decide, by decide⟩

/-- C1 amended: for every invoice line list with no line containing the
literal "Service Date" label, if the first line matching the labelled
DATE pattern captures a token that strictly parses to `d` and the first
Subtotal match captures `a`, then extract_invoice_fields succeeds with
service_date `d` and amount `a`; the original claim fails when a Service
Date noise line or an earlier DATE-labelled line is present. -/
theorem c1_amended : ∀ (fuzzy : List Char → Option Date)
    (lines : List (List Char)) (tok : List Char) (d : Date) (a : List Char),
    (∀ l ∈ lines, containsSub "Service Date".toList l = false) →
    lines.findSome? Meriwether.searchLabeledDate = some tok →
    parseMMDDYYYY tok = some d →
    Meriwether.invoiceAmount lines = some a →
    ∃ r, Meriwether.extract_invoice_fields fuzzy lines = .ok r ∧
      r.service_date = d ∧ r.amount = some a := by
  intro fuzzy lines tok d a h1 h2 h3 h4
  unfold Meriwether.extract_invoice_fields Meriwether.invoiceServiceDate
  simp only [strat1_none_of_no_label h1, h2, h3]
  exact ⟨_, rfl, rfl, h4⟩

/-- C1 witness: the amended theorem applied to a two-line document with one
labelled date and one Subtotal line. -/
theorem c1_amended_witness :
    ∃ r, Meriwether.extract_invoice_fields dateutilParseModel
        ["DATE 09/22/2025".toList, "Subtotal $184.50".toList] = .ok r ∧
      r.service_date = ⟨2025, 9, 22⟩ ∧ r.amount = some ("184.50".toList) :=
  c1_amended dateutilParseModel
    ["DATE 09/22/2025".toList, "Subtotal $184.50".toList]
    ("09/22/2025".toList) ⟨2025, 9, 22⟩ ("184.50".toList)
    (by decide) (by decide) (by decide) (by decide)

/-- C2. Date extraction is required in both families: when no strategy of the
invoice chain succeeds (the Service-Date lookahead yields nothing and any
labelled DATE token fails the strict parse), extract_invoice_fields and
process_invoice end in the raised error, so no rename is produced; likewise,
when neither receipt date search yields a parseable token, extract_date and
the whole receipt pipeline end in the raised error. No default date is
substituted in either family. -/
theorem c2_required_date_terminal :
    (∀ (fuzzy : List Char → Option Date) (lines : List (List Char))
      (p : List Char),
      Meriwether.serviceDateStrat1 fuzzy lines = none →
      (∀ tok, lines.findSome? Meriwether.searchLabeledDate = some tok →
        parseMMDDYYYY tok = none) →
      exceptOk (Meriwether.extract_invoice_fields fuzzy lines) = false ∧
      exceptOk (Meriwether.process_invoice fuzzy lines p) = false) ∧
    (∀ (text : List Char) (ocr : Option (List Char)) (p : List Char),
      (∀ tok, Northwest.searchColonLabeledDate text = some tok →
        parseMMDDYYYY tok = none) →
      (∀ tok, Northwest.searchBareDate text = some tok →
        parseMMDDYYYY tok = none) →
      exceptOk (Northwest.extract_date text) = false ∧
      exceptOk (Northwest.main_core text ocr p) = false) := by
  constructor
  · intro fuzzy lines p h1 h2
    have hdate : ∃ e, Meriwether.invoiceServiceDate fuzzy lines = .error e := by
      unfold Meriwether.invoiceServiceDate
      cases hf : lines.findSome? Meriwether.searchLabeledDate with
      | some tok => simp only [h1, hf, h2 tok hf]; exact ⟨_, rfl⟩
      | none => simp only [h1, hf]; exact ⟨_, rfl⟩
    obtain ⟨e, he⟩ := hdate
    have hex : Meriwether.extract_invoice_fields fuzzy lines = .error e := by
      unfold Meriwether.extract_invoice_fields
      rw [he]
    constructor
    · rw [hex]; rfl
    · unfold Meriwether.process_invoice
      rw [hex]
      rfl
  · intro text ocr p h1 h2
    have hdate : ∃ e, Northwest.extract_date text = .error e := by
      unfold Northwest.extract_date
      cases hc : Northwest.searchColonLabeledDate text with
      | some tok =>
        simp only [hc, h1 tok hc]
        exact ⟨_, rfl⟩
      | none =>
        cases hb : Northwest.searchBareDate text with
        | some tok => simp only [hc, hb, h2 tok hb]; exact ⟨_, rfl⟩
        | none => simp only [hc, hb]; exact ⟨_, rfl⟩
    obtain ⟨e, he⟩ := hdate
    constructor
    · rw [he]; rfl
    · unfold Northwest.main_core
      cases ha : Northwest.extract_amount text with
      | error ea => rfl
      | ok av => rw [he]; rfl

/-- C2 witness: the terminality theorem applied to a dateless invoice line
list and a dateless receipt text. -/
theorem c2_required_date_terminal_witness :
    (exceptOk (Meriwether.extract_invoice_fields dateutilParseModel
        ["hello".toList]) = false ∧
      exceptOk (Meriwether.process_invoice dateutilParseModel
        ["hello".toList] "/a/b.pdf".toList) = false) ∧
    (exceptOk (Northwest.extract_date ("no dates here".toList)) = false ∧
      exceptOk (Northwest.main_core ("no dates here".toList) none
        "/a/b.pdf".toList) = false) :=
  ⟨c2_required_date_terminal.1 dateutilParseModel ["hello".toList]
      "/a/b.pdf".toList (by decide)
      (by intro tok htok; rw [show (["hello".toList] :
        List (List Char)).findSome? Meriwether.searchLabeledDate = none
        from by decide] at htok; cases htok),
    c2_required_date_terminal.2 ("no dates here".toList) none
      "/a/b.pdf".toList
      (by intro tok htok; rw [show Northwest.searchColonLabeledDate
        ("no dates here".toList) = none from by decide] at htok; cases htok)
      (by intro tok htok; rw [show Northwest.searchBareDate
        ("no dates here".toList) = none from by decide] at htok; cases htok)⟩

/-- C3 counterexample: an invoice document with no Subtotal line does not
always complete with an absent amount, because date extraction is attempted
regardless and raises on this dateless input; the claim as stated fails. -/
theorem c3_counterexample :
    Meriwether.invoiceAmount ["hello".toList] = none ∧
    exceptOk (Meriwether.extract_invoice_fields dateutilParseModel
      ["hello".toList]) = false := by
  exact ⟨by decide, by decide⟩

/-- C3 amended: a receipt text matched by none of the three amount label
patterns makes extract_amount raise the MissingRequiredField-style ValueError;
an invoice document with no Subtotal match completes with amount None whenever
its service-date extraction succeeds, so a missing invoice amount alone never
raises. -/
theorem c3_amended :
    (∀ text : List Char,
      Northwest.searchAmountPat "payment amount".toList text = none →
      Northwest.searchAmountPat "amount".toList text = none →
      Northwest.searchAmountPat "total".toList text = none →
      Northwest.extract_amount text =
        .error ("Could not find payment amount in receipt text.".toList)) ∧
    (∀ (fuzzy : List Char → Option Date) (lines : List (List Char)) (d : Date),
      Meriwether.invoiceServiceDate fuzzy lines = .ok d →
      Meriwether.invoiceAmount lines = none →
      ∃ r, Meriwether.extract_invoice_fields fuzzy lines = .ok r ∧
        r.amount = none) := by
  constructor
  · intro text h1 h2 h3
    unfold Northwest.extract_amount
    simp only [h1, h2, h3]
  · intro fuzzy lines d hd ha
    unfold Meriwether.extract_invoice_fields
    simp only [hd]
    exact ⟨_, rfl, ha⟩

/-- C3 witness: the amended theorem applied to the receipt text
"no amount text" and to a one-line invoice document carrying only a date. -/
theorem c3_amended_witness :
    Northwest.extract_amount ("no amount text".toList) =
      .error ("Could not find payment amount in receipt text.".toList) ∧
    ∃ r, Meriwether.extract_invoice_fields dateutilParseModel
        ["DATE 09/22/2025".toList] = .ok r ∧ r.amount = none :=
  ⟨c3_amended.1 ("no amount text".toList) (by decide) (by decide) (by decide),
    c3_amended.2 dateutilParseModel ["DATE 09/22/2025".toList] ⟨2025, 9, 22⟩
      (by rfl) (by decide)⟩

/-- C4 counterexample: a receipt text layer with no known pattern and no
qualifying top-band line resolves to the hardcoded text fallback "Northwest"
without consulting the OCR result, even though the OCR text of the top crop
contains "Northwest Exterminating Pest Control"; the claimed OCR-driven
"Northwest Exterminating" answer is never produced. -/
theorem c4_counterexample :
    Northwest.extract_company
        ("PAYMENT RECEIPT\nCONFIRMATION NUMBER 1921346628\nDATE 09/22/2025\nPAYMENT AMOUNT $99.00".toList)
        (some ("Northwest Exterminating Pest Control".toList)) =
      "Northwest".toList ∧
    "Northwest".toList ≠ "Northwest Exterminating".toList ∧
    Northwest.sanitize_company (Northwest.extract_company
        ("PAYMENT RECEIPT\nCONFIRMATION NUMBER 1921346628\nDATE 09/22/2025\nPAYMENT AMOUNT $99.00".toList)
        (some ("Northwest Exterminating Pest Control".toList))) =
      "Northwest".toList ∧
    "Northwest".toList ≠ "NorthwestExterminating".toList := by
  exact ⟨by decide, by decide, by decide, by decide⟩

/-- C4 amended: when the text layer matches no known pattern and no line of
the top band qualifies, vendor resolution returns the hardcoded text-layer
fallback "Northwest" for every OCR outcome, sanitised to "Northwest", without
consulting the OCR crop; the OCR result is consulted only when the text
extractor returns the literal value "Unknown", and then OCR text containing
"northwest exterminating" yields "Northwest Exterminating". -/
theorem c4_amended :
    (∀ (text : List Char) (ocr : Option (List Char)),
      Northwest.wordBounded "northwest exterminating".toList text = false →
      Northwest.wordBounded "northwest".toList text = false →
      ((pyTextLines text).take 10).findSome? Northwest.genericCand = none →
      Northwest.extract_company text ocr = "Northwest".toList ∧
        Northwest.sanitize_company (Northwest.extract_company text ocr) =
          "Northwest".toList) ∧
    (∀ (text t : List Char),
      Northwest.extract_company_from_text text = "Unknown".toList →
      containsSub "northwest exterminating".toList (t.map Char.toLower) = true →
      Northwest.extract_company text (some t) =
        "Northwest Exterminating".toList) := by
  constructor
  · intro text ocr h1 h2 h3
    have htext : Northwest.extract_company_from_text text =
        "Northwest".toList := by
      unfold Northwest.extract_company_from_text
      simp only [h1, h2, h3]
      rw [if_neg (by simp), if_neg (by simp)]
    constructor
    · unfold Northwest.extract_company
      rw [htext, if_neg (by decide)]
    · unfold Northwest.extract_company
      rw [htext, if_neg (by decide)]
      decide
  · intro text t h1 h2
    have hocr : Northwest.extract_company_from_logo_ocr (some t) =
        "Northwest Exterminating".toList := by
      unfold Northwest.extract_company_from_logo_ocr
      show (if containsSub "northwest exterminating".toList
            (List.map Char.toLower t) = true
          then "Northwest Exterminating".toList
          else if containsSub "northwest".toList (List.map Char.toLower t) = true
          then "Northwest".toList else "Unknown".toList) =
        "Northwest Exterminating".toList
      rw [h2, if_pos rfl]
    unfold Northwest.extract_company
    rw [h1, hocr]
    decide

/-- C4 witness: the amended theorem applied to a receipt whose four lines are
all recognised as non-vendor labels, and to the one-line text "Unknown" whose
literal value routes vendor resolution through the OCR result. -/
theorem c4_amended_witness :
    (Northwest.extract_company
        ("PAYMENT RECEIPT\nCONFIRMATION NUMBER 1921346628\nDATE 09/22/2025\nPAYMENT AMOUNT $99.00".toList)
        none = "Northwest".toList ∧
      Northwest.sanitize_company (Northwest.extract_company
        ("PAYMENT RECEIPT\nCONFIRMATION NUMBER 1921346628\nDATE 09/22/2025\nPAYMENT AMOUNT $99.00".toList)
        none) = "Northwest".toList) ∧
    Northwest.extract_company ("Unknown".toList)
        (some ("Northwest Exterminating Pest Control".toList)) =
      "Northwest Exterminating".toList :=
  ⟨c4_amended.1
      ("PAYMENT RECEIPT\nCONFIRMATION NUMBER 1921346628\nDATE 09/22/2025\nPAYMENT AMOUNT $99.00".toList)
      none (by decide) (by decide) (by decide),
    c4_amended.2 ("Unknown".toList)
      ("Northwest Exterminating Pest Control".toList) (by decide) (by decide)⟩

theorem digit_not_comma {c : Char} (h : c.isDigit = true) : (c == ',') = false := by
  by_cases hc : c = ','
  · subst hc; exact absurd h (by decide)
  · simp [hc]

theorem matchCurrencyAt_shape {l g : List Char} (h : matchCurrencyAt l = some g) :
    ∃ run a b, g = run ++ '.' :: a :: b :: [] ∧ run ≠ [] ∧
      (∀ c ∈ run, (c.isDigit || c == ',') = true) ∧
      a.isDigit = true ∧ b.isDigit = true := by
  unfold matchCurrencyAt at h
  set run := l.takeWhile (fun c => c.isDigit || c == ',') with hrun
  by_cases he : run.isEmpty = true
  · rw [if_pos he] at h; cases h
  · rw [if_neg he] at h
    cases hd : l.drop run.length with
    | nil => rw [hd] at h; cases h
    | cons c1 t1 =>
      rw [hd] at h
      cases t1 with
      | nil =>
        have h2 : (none : Option (List Char)) = some g := h
        cases h2
      | cons a t2 =>
        cases t2 with
        | nil =>
          have h2 : (none : Option (List Char)) = some g := h
          cases h2
        | cons b t3 =>
          have h2 : (if c1 == '.' && a.isDigit && b.isDigit then
              some (run ++ c1 :: a :: b :: []) else none) = some g := h
          by_cases hc : (c1 == '.' && a.isDigit && b.isDigit) = true
          · rw [if_pos hc] at h2
            cases h2
            have hc3 : (c1 == '.') = true ∧ a.isDigit = true ∧
                b.isDigit = true := by
              simpa [Bool.and_eq_true, and_assoc] using hc
            have hc1 : c1 = '.' := by
              have := hc3.1
              simpa using this
            subst hc1
            refine ⟨run, a, b, rfl, ?_, ?_, hc3.2.1, hc3.2.2⟩
            · simpa [List.isEmpty_iff] using he
            · intro c hc2
              rw [hrun] at hc2
              have := List.mem_takeWhile_imp hc2
              simpa using this
          · rw [if_neg hc] at h2; cases h2

theorem searchAmountPat_curr {label text g : List Char}
    (h : Northwest.searchAmountPat label text = some g) :
    ∃ l, matchCurrencyAt l = some g := by
  obtain ⟨t, ht⟩ := scanFirst_some h
  by_cases hl : lowerMatch label t = true
  · rw [if_pos hl] at ht
    exact ⟨_, ht⟩
  · rw [if_neg hl] at ht; cases ht

theorem searchSubtotal_curr {line g : List Char}
    (h : Meriwether.searchSubtotal line = some g) :
    ∃ l, matchCurrencyAt l = some g := by
  obtain ⟨t, ht⟩ := scanFirst_some h
  by_cases hl : lowerMatch "subtotal".toList t = true
  · rw [if_pos hl] at ht
    cases hdrop : t.drop 8 with
    | nil => rw [hdrop] at ht; cases ht
    | cons c r =>
      rw [hdrop] at ht
      have ht2 : (if isWS c = true then
          matchCurrencyAt (stripDollar ((c :: r).dropWhile isWS))
        else none) = some g := ht
      by_cases hws : isWS c = true
      · rw [if_pos hws] at ht2
        exact ⟨_, ht2⟩
      · rw [if_neg hws] at ht2; cases ht2
  · rw [if_neg hl] at ht; cases ht

/-- C6 counterexample: an invoice whose Subtotal line carries a thousands
separator returns the amount "1,234.56" with the comma still embedded, so
the returned amount is not always comma-free. -/
theorem c6_counterexample :
    (Meriwether.extract_invoice_fields dateutilParseModel
        ["DATE 09/22/2025".toList, "Subtotal $1,234.56".toList]).toOption.map
      Meriwether.InvoiceFields.amount = some (some ("1,234.56".toList)) ∧
    ',' ∈ "1,234.56".toList := by
  exact ⟨by decide, by decide⟩

/-- C6 amended: every amount successfully extracted by the receipt family has
its commas stripped and is a plain decimal, a possibly empty digit run
followed by a dot and exactly two digits; the invoice family instead returns
the matched Subtotal group verbatim, a non-empty run of digits and commas
followed by a dot and exactly two digits, commas included. -/
theorem c6_amended :
    (∀ (text g : List Char), Northwest.extract_amount text = .ok g →
      (∀ c ∈ g, (c == ',') = false) ∧
      ∃ r a b, g = r ++ '.' :: a :: b :: [] ∧ (∀ c ∈ r, c.isDigit = true) ∧
        a.isDigit = true ∧ b.isDigit = true) ∧
    (∀ (lines : List (List Char)) (g : List Char),
      Meriwether.invoiceAmount lines = some g →
      ∃ r a b, g = r ++ '.' :: a :: b :: [] ∧ r ≠ [] ∧
        (∀ c ∈ r, (c.isDigit || c == ',') = true) ∧
        a.isDigit = true ∧ b.isDigit = true) := by
  constructor
  · intro text g h
    have hg0 : ∃ g0, (∃ l, matchCurrencyAt l = some g0) ∧
        g = Northwest.pyRemoveCommas g0 := by
      unfold Northwest.extract_amount at h
      cases h1 : Northwest.searchAmountPat "payment amount".toList text with
      | some g0 => rw [h1] at h; cases h; exact ⟨g0, searchAmountPat_curr h1, rfl⟩
      | none =>
        rw [h1] at h
        cases h2 : Northwest.searchAmountPat "amount".toList text with
        | some g0 => rw [h2] at h; cases h; exact ⟨g0, searchAmountPat_curr h2, rfl⟩
        | none =>
          rw [h2] at h
          cases h3 : Northwest.searchAmountPat "total".toList text with
          | some g0 =>
            rw [h3] at h; cases h; exact ⟨g0, searchAmountPat_curr h3, rfl⟩
          | none => rw [h3] at h; cases h
    obtain ⟨g0, ⟨l0, hm⟩, rfl⟩ := hg0
    obtain ⟨run, a, b, rfl, hne, hrunp, ha, hb⟩ := matchCurrencyAt_shape hm
    constructor
    · intro c hc
      unfold Northwest.pyRemoveCommas at hc
      rw [List.mem_filter] at hc
      simpa using hc.2
    · refine ⟨run.filter (fun c => !(c == ',')), a, b, ?_, ?_, ha, hb⟩
      · unfold Northwest.pyRemoveCommas
        rw [List.filter_append]
        congr 1
        simp [List.filter_cons, digit_not_comma ha, digit_not_comma hb]
      · intro c hc
        rw [List.mem_filter] at hc
        have hor := hrunp c hc.1
        have hcc : (c == ',') = false := by simpa using hc.2
        rcases Bool.or_eq_true .. |>.mp hor with hd | hcomma
        · exact hd
        · rw [hcomma] at hcc; cases hcc
  · intro lines g h
    unfold Meriwether.invoiceAmount at h
    obtain ⟨x, hx, hsx⟩ := List.exists_of_findSome?_eq_some h
    obtain ⟨l0, hm⟩ := searchSubtotal_curr hsx
    exact matchCurrencyAt_shape hm

/-- C6 witness: the amended theorem applied to a receipt text whose payment
amount carries a thousands separator and to an invoice line list whose
Subtotal does. -/
theorem c6_amended_witness :
    ((∀ c ∈ "1234.56".toList, (c == ',') = false) ∧
      ∃ r a b, "1234.56".toList = r ++ '.' :: a :: b :: [] ∧
        (∀ c ∈ r, c.isDigit = true) ∧ a.isDigit = true ∧ b.isDigit = true) ∧
    ∃ r a b, "1,234.56".toList = r ++ '.' :: a :: b :: [] ∧ r ≠ [] ∧
      (∀ c ∈ r, (c.isDigit || c == ',') = true) ∧
      a.isDigit = true ∧ b.isDigit = true :=
  ⟨c6_amended.1 ("PAYMENT AMOUNT $1,234.56".toList) ("1234.56".toList)
      (by rfl),
    c6_amended.2 ["Subtotal $1,234.56".toList] ("1,234.56".toList) (by rfl)⟩

/-- C7 counterexample: for the extensionless invoice source path
"/tmp/invoice" the synthesized name carries no extension at all, it does not
even contain a dot, so the invoice family substitutes no fixed default
extension. -/
theorem c7_counterexample :
    (Meriwether.process_invoice dateutilParseModel ["DATE 09/22/2025".toList]
        "/tmp/invoice".toList).toOption =
      some ("2025-09-22-DATE-invoice".toList) ∧
    '.' ∉ "2025-09-22-DATE-invoice".toList := by
  exact ⟨by decide, by decide⟩

/-- C7 amended: both synthesizers append the original extension of the source
name verbatim as a suffix; the receipt family substitutes ".pdf" when the
name carries no extension, while the invoice family appends the possibly
empty extension with no default. -/
theorem c7_amended :
    (∀ (p : List Char) (d : Date) (c n : List Char),
      ∃ s, Meriwether.build_new_filename p d c n =
        s ++ (pySplitExt (pyBasename p)).2) ∧
    (∀ date_iso comp old : List Char,
      ∃ s, Northwest.new_name date_iso comp old =
        s ++ Northwest.receiptExt old) ∧
    Northwest.receiptExt ("receipt".toList) = ".pdf".toList ∧
    Northwest.receiptExt ("receipt.PDF".toList) = ".PDF".toList := by
  refine ⟨?_, ?_, by decide, by decide⟩
  · intro p d c n
    exact ⟨_, rfl⟩
  · intro date_iso comp old
    exact ⟨_, rfl⟩
